import Mathlib

/-!
Verification of the `html2pptx` HTML-to-slide converter

Shallow embedding of `scripts/pptx/html2pptx.js` (the HTML-to-PowerPoint
extraction pipeline).  Pixel lengths, point lengths and inches are modelled
as rationals; JavaScript `Math.round` / `%` / truthiness are modelled
explicitly.  Each definition is annotated with the source lines it embeds.
-/

namespace Html2Pptx

/-! ## JavaScript numeric primitives -/

/-- JavaScript `Math.round`: rounds half towards positive infinity. -/
def jsRound (q : ℚ) : ℤ := ⌊q + 1/2⌋

/-- Truncation towards zero, as used by the JavaScript `%` operator. -/
def jsTrunc (q : ℚ) : ℤ := if 0 ≤ q then ⌊q⌋ else ⌈q⌉

/-- JavaScript remainder `a % n` (sign follows the dividend). -/
def jsMod (a n : ℚ) : ℚ := a - n * (jsTrunc (a / n) : ℚ)

/-! ## Unit-conversion constants (html2pptx.js lines 34-36 and 334-335)

The module scope declares `PT_PER_PX = 0.5` (used by the overflow check in
`getBodyDimensions`), while the `page.evaluate` scope inside
`extractSlideData` re-declares `PT_PER_PX = 0.7` (used by every style
conversion).  Both are kept as named constants. -/

def PT_PER_PX_MODULE : ℚ := 1/2

def PT_PER_PX_EVAL : ℚ := 7/10

def PX_PER_IN : ℚ := 96

/-- Embeds `pxToInch` (line 349). -/
def pxToInch (px : ℚ) : ℚ := px / PX_PER_IN

/-- Embeds `pxToPoints` (lines 350-370), applied to a numeric pixel value.  The
string-parsing fallbacks of the source collapse to the same multiplication
once the computed style is modelled as a number of pixels. -/
def pxToPoints (px : ℚ) : ℚ := px * PT_PER_PX_EVAL

/-! ## Color model

A browser-serialized computed color is `rgb(r, g, b)` when the alpha is 1
and `rgba(r, g, b, a)` otherwise; the canvas read-back in
`getComputedRGBColor` (lines 701-720) always produces the four-component
form.  `RgbaStr` records the channels together with whether the serialized
string carries an explicit fourth component, which is exactly what the
regular expression of `extractAlpha` keys on. -/

structure RgbaStr where
  r : ℕ
  g : ℕ
  b : ℕ
  a : ℚ
  explicitAlpha : Bool
deriving DecidableEq, Repr

/-- A computed CSS color: either already in `rgb`/`rgba` serialization, or a
non-RGB syntax (oklch, hsl, ...) that the canvas trick resolves. -/
inductive CssColor where
  | rgbSer (c : RgbaStr)
  | nonRgb (r g b : ℕ) (a : ℚ)
deriving DecidableEq, Repr

/-- Embeds `getComputedRGBColor` (lines 701-720): `rgb(...)` strings pass through
unchanged; anything else is rendered on a 1x1 canvas and read back, which
serializes as `rgba(r, g, b, a)` (explicit alpha even when `a = 1`). -/
def getComputedRGBColor : CssColor → RgbaStr
  | .rgbSer c => c
  | .nonRgb r g b a => ⟨r, g, b, a, true⟩

/-- One lowercase hex digit, as produced by JavaScript `toString(16)`. -/
def hexDigit (n : ℕ) : String :=
  (["0", "1", "2", "3", "4", "5", "6", "7", "8", "9",
    "a", "b", "c", "d", "e", "f"].getD (n % 16) "0")

/-- Two-digit lowercase hex (`toString(16)` left-padded with 0 to two digits). -/
def toHex2 (n : ℕ) : String := hexDigit (n / 16 % 16) ++ hexDigit n

/-- Embeds `rgbToHex` (lines 371-378): fully transparent black and `transparent`
default to white; otherwise the three channels are hex-encoded. -/
def rgbToHex (c : RgbaStr) : String :=
  if c.r = 0 ∧ c.g = 0 ∧ c.b = 0 ∧ c.a = 0 ∧ c.explicitAlpha then "FFFFFF"
  else toHex2 c.r ++ toHex2 c.g ++ toHex2 c.b

/-- Embeds `extractAlpha` (lines 380-385): only a serialized `rgba(...)` with a
fourth component matches the regular expression; the result is
`Math.round((1 - alpha) * 100)`. -/
def extractAlpha (c : RgbaStr) : Option ℤ :=
  if c.explicitAlpha then some (jsRound ((1 - c.a) * 100)) else none

/-- The shape-fill transparency computation for container backgrounds
(`extractSlideData`, lines 992-1004): takes the already-extracted
`colorAlpha` and, when it is non-null and non-zero, applies
`Math.round((1 - colorAlpha) * 100)` to it again; otherwise falls back to
the element opacity (`parseFloat(computed.opacity) || 1`). -/
def shapeTransparency (bg : RgbaStr) (opacity : ℚ) : Option ℤ :=
  let colorAlpha := extractAlpha (getComputedRGBColor (.rgbSer bg))
  let elementOpacity := if opacity = 0 then 1 else opacity
  match colorAlpha with
  | some ca =>
      if ca ≠ 0 then some (jsRound ((1 - (ca : ℚ)) * 100))
      else if elementOpacity < 1 then some (jsRound ((1 - elementOpacity) * 100))
      else none
  | none =>
      if elementOpacity < 1 then some (jsRound ((1 - elementOpacity) * 100))
      else none

/-! ## Geometry -/

/-- A DOM rectangle (`getBoundingClientRect` result), in pixels. -/
structure Rect where
  left : ℚ
  top : ℚ
  width : ℚ
  height : ℚ
deriving DecidableEq, Repr

/-- The detected slide-container offset (lines 723-734). -/
structure ContainerOffset where
  x : ℚ
  y : ℚ
deriving DecidableEq, Repr

/-- Embeds `adjustRect` (lines 737-744): re-bases a rectangle on the container
origin, clamping `left`/`top` at zero; width and height pass through. -/
def adjustRect (offset : ContainerOffset) (rect : Rect) : Rect :=
  { left := max 0 (rect.left - offset.x)
    top := max 0 (rect.top - offset.y)
    width := rect.width
    height := rect.height }

/-- The `writing-mode` values distinguished by `getRotation`. -/
inductive WritingMode where
  | horizontalTb
  | verticalRl
  | verticalLr
deriving DecidableEq, Repr

/-- The parsed shape of a computed `transform` value as consumed by
`getRotation` (lines 412-427): absent/`none`, a `rotate(<q>deg)` match, a
`matrix(...)` whose rotation has been recovered as
`Math.round(atan2(b, a) * 180 / pi)`, or an unrecognized string. -/
inductive TransformVal where
  | noTransform
  | rotate (deg : ℚ)
  | matrix (roundedDeg : ℤ)
  | unmatched
deriving DecidableEq, Repr

/-- The normalization tail of `getRotation` (lines 429-433): `% 360`, a
conditional `+ 360`, and `angle === 0 ? null : angle`. -/
def normalizeAngle (x : ℚ) : Option ℚ :=
  let angle := jsMod x 360
  let angle := if angle < 0 then angle + 360 else angle
  if angle = 0 then none else some angle

/-- Embeds `getRotation` (lines 397-434): writing-mode contributes 90 or 270, an
explicit transform adds on top, and the sum is normalized by
`normalizeAngle`. -/
def getRotation (writingMode : WritingMode) (transform : TransformVal) : Option ℚ :=
  let angle : ℚ :=
    match writingMode with
    | .verticalRl => 90
    | .verticalLr => 270
    | .horizontalTb => 0
  let angle : ℚ :=
    match transform with
    | .rotate q => angle + q
    | .matrix z => angle + (z : ℚ)
    | .noTransform => angle
    | .unmatched => angle
  normalizeAngle angle

/-- Reported position and size of an element, still in pixels. -/
structure PosSize where
  x : ℚ
  y : ℚ
  w : ℚ
  h : ℚ
deriving DecidableEq, Repr

/-- Embeds `getPositionAndSize` (lines 437-470).  `offsetWidth`/`offsetHeight` are
the offset dimensions of the element used by the generic-rotation branch. -/
def getPositionAndSize (offsetWidth offsetHeight : ℚ) (rect : Rect)
    (rotation : Option ℚ) : PosSize :=
  match rotation with
  | none => ⟨rect.left, rect.top, rect.width, rect.height⟩
  | some r =>
      let centerX := rect.left + rect.width / 2
      let centerY := rect.top + rect.height / 2
      if r = 90 ∨ r = 270 then
        ⟨centerX - rect.height / 2, centerY - rect.width / 2, rect.height, rect.width⟩
      else
        ⟨centerX - offsetWidth / 2, centerY - offsetHeight / 2, offsetWidth, offsetHeight⟩

/-- The reported (inches) position of a text element: its client rectangle
is re-based by `adjustRect` (line 1338), rotation handling re-derives the
box (line 1353), and the result is converted to inches (line 1408 etc.). -/
def extractedTextPos (offset : ContainerOffset) (raw : Rect)
    (offsetWidth offsetHeight : ℚ) (rotation : Option ℚ) : PosSize :=
  let rect := adjustRect offset raw
  let p := getPositionAndSize offsetWidth offsetHeight rect rotation
  ⟨pxToInch p.x, pxToInch p.y, pxToInch p.w, pxToInch p.h⟩

/-- Reported placeholder rectangle (lines 848-861), in inches. -/
def placeholderRect (offset : ContainerOffset) (raw : Rect) : PosSize :=
  let rect := adjustRect offset raw
  ⟨pxToInch rect.left, pxToInch rect.top, pxToInch rect.width, pxToInch rect.height⟩

/-! ## Number formatting (JavaScript `toFixed`) -/

/-- Left-pad a decimal numeral with zeros. -/
def padZeros (len : ℕ) (s : String) : String :=
  if s.length < len then String.mk (List.replicate (len - s.length) '0') ++ s else s

/-- JavaScript `Number.prototype.toFixed(d)` for non-negative rationals
(every value formatted by the embedded code is non-negative).  Rounding of
exact ties is half-up, matching the binary-float behavior at the values
that occur in this development. -/
def jsToFixed (d : ℕ) (q : ℚ) : String :=
  let scaled := (jsRound (q * ((10 : ℚ) ^ d))).toNat
  if d = 0 then toString scaled
  else toString (scaled / 10 ^ d) ++ "." ++ padZeros d (toString (scaled % 10 ^ d))

/-! ## `getBodyDimensions` and the overflow check -/

/-- The dimensions object assembled inside `getBodyDimensions`
(lines 40-76): body box, scroll box, and the optional detected
slide-container box. -/
structure BodyDims where
  width : ℚ
  height : ℚ
  scrollWidth : ℚ
  scrollHeight : ℚ
  containerWidth : Option ℚ
  containerHeight : Option ℚ
deriving DecidableEq, Repr

/-- JavaScript `a || b` over an optional number: `null` and `0` both fall
back to the default. -/
def orFalsy (a : Option ℚ) (b : ℚ) : ℚ :=
  match a with
  | some v => if v = 0 then b else v
  | none => b

/-- Embeds `bodyDimensions.containerWidth || bodyDimensions.width` (line 75). -/
def effectiveWidth (d : BodyDims) : ℚ := orFalsy d.containerWidth d.width

/-- Embeds `bodyDimensions.containerHeight || bodyDimensions.height` (line 76). -/
def effectiveHeight (d : BodyDims) : ℚ := orFalsy d.containerHeight d.height

/-- The fixed vertical overflow tolerance (line 85). -/
def heightOverflowTolerance : ℚ := 100

/-- The diagnostic message pushed by the overflow check (line 93). -/
def overflowMessage (excess : ℚ) : String :=
  "HTML content overflows by " ++ jsToFixed 1 excess ++
  "pt vertically (exceeds 100pt padding tolerance)"

/-- The error-collection part of `getBodyDimensions` (lines 78-96): both
overflow amounts are computed, but only the vertical one (beyond the fixed
100pt tolerance) ever produces a finding; the horizontal check is
deliberately skipped (lines 87-88). -/
def getBodyDimensionsErrors (d : BodyDims) : List String :=
  let widthOverflowPx := max 0 (d.scrollWidth - effectiveWidth d - 1)
  let heightOverflowPx := max 0 (d.scrollHeight - effectiveHeight d - 1)
  let widthOverflowPt := widthOverflowPx * PT_PER_PX_MODULE
  let heightOverflowPt := heightOverflowPx * PT_PER_PX_MODULE
  let _ := widthOverflowPt
  if heightOverflowPt > heightOverflowTolerance then
    [overflowMessage (heightOverflowPt - heightOverflowTolerance)]
  else []

/-- The semantic content of the overflow finding: `some excess` when a
finding is produced, `none` otherwise (code side, lines 79-94). -/
def codeOverflowExcess (d : BodyDims) : Option ℚ :=
  let heightOverflowPt := max 0 (d.scrollHeight - effectiveHeight d - 1) * PT_PER_PX_MODULE
  if heightOverflowPt > heightOverflowTolerance then
    some (heightOverflowPt - heightOverflowTolerance)
  else none

/-- Modelled from the spec sentence of C3: a finding is produced exactly
when `(scrollHeight - effectiveHeight)` converted to points exceeds the
100pt tolerance, and it reports the excess over the tolerance. -/
def specOverflowExcess (d : BodyDims) : Option ℚ :=
  let diffPt := (d.scrollHeight - effectiveHeight d) * PT_PER_PX_MODULE
  if diffPt > heightOverflowTolerance then some (diffPt - heightOverflowTolerance)
  else none

/-! ## String utilities for the inline parser -/

/-- JavaScript `\s` (restricted to the whitespace characters that occur in
this development). -/
def isJsWs (c : Char) : Bool := c = ' ' ∨ c = '\t' ∨ c = '\n' ∨ c = '\r'

/-- Collapse every maximal whitespace run to a single space
(the global whitespace-to-space replace of line 545). -/
def collapseWsGo : Bool → List Char → List Char
  | _, [] => []
  | prevWs, c :: rest =>
      if isJsWs c then
        if prevWs then collapseWsGo true rest else ' ' :: collapseWsGo true rest
      else c :: collapseWsGo false rest

def collapseWs (s : String) : String := String.mk (collapseWsGo false s.toList)

/-- Embeds the leading-whitespace strip of line 647. -/
def trimLeadingWs (s : String) : String := String.mk (s.toList.dropWhile isJsWs)

/-- Embeds the trailing-whitespace strip of line 648. -/
def trimTrailingWs (s : String) : String :=
  String.mk ((s.toList.reverse.dropWhile isJsWs).reverse)

/-- Kernel-reducible JavaScript `String.prototype.trim` (the core
`String.trim` is defined by position arithmetic that the kernel cannot
evaluate, so the embedding uses a character-list version). -/
def jsTrim (s : String) : String :=
  String.mk (((s.toList.dropWhile isJsWs).reverse.dropWhile isJsWs).reverse)

/-- Kernel-reducible `String.prototype.includes` for one character. -/
def containsChar (s : String) (c : Char) : Bool := s.toList.contains c

/-- Kernel-reducible lowercase / uppercase conversions. -/
def toLowerStr (s : String) : String := String.mk (s.toList.map Char.toLower)

def toUpperStr (s : String) : String := String.mk (s.toList.map Char.toUpper)

/-- Kernel-reducible split on one separator character. -/
def splitOnCharGo (sep : Char) : List Char → List Char → List String
  | acc, [] => [String.mk acc.reverse]
  | acc, c :: rest =>
      if c = sep then String.mk acc.reverse :: splitOnCharGo sep [] rest
      else splitOnCharGo sep (c :: acc) rest

def splitOnChar (sep : Char) (s : String) : List String :=
  splitOnCharGo sep [] s.toList

/-- Does `pat` occur at the start of `l`. -/
def leadsWith : List Char → List Char → Bool
  | _, [] => true
  | [], _ :: _ => false
  | a :: as, b :: bs => a = b && leadsWith as bs

/-- Substring occurrence (JavaScript `String.prototype.includes`). -/
def listHasSub : List Char → List Char → Bool
  | l, pat =>
      match l with
      | [] => pat.isEmpty
      | _ :: rest => leadsWith l pat || listHasSub rest pat

def hasSub (s pat : String) : Bool := listHasSub s.toList pat.toList

/-- The ASCII single-quote character (written via its code point). -/
def quoteChar : Char := Char.ofNat 39

/-- Embeds the quote-removal replace of lines 344 and 1086. -/
def removeQuotes (s : String) : String :=
  String.mk (s.toList.filter (fun c => ¬ (c = quoteChar ∨ c = '"')))

/-- JS `\w` (`[A-Za-z0-9_]`). -/
def isWordChar (c : Char) : Bool := c.isAlpha ∨ c.isDigit ∨ c = '_'

/-- Embeds `text.replace(/\b\w/g, c => c.toUpperCase())`: uppercase every word
character that starts a word. -/
def capitalizeGo : Bool → List Char → List Char
  | _, [] => []
  | prevWord, c :: rest =>
      (if isWordChar c ∧ ¬ prevWord then c.toUpper else c) :: capitalizeGo (isWordChar c) rest

def capitalizeWords (s : String) : String := String.mk (capitalizeGo false s.toList)

/-- Computed `text-transform` values distinguished by `applyTextTransform`
(lines 387-394); `unset` stands for the computed value `none`. -/
inductive TextTransformCss where
  | unset
  | uppercase
  | lowercase
  | capitalize
deriving DecidableEq, Repr

/-- Embeds `applyTextTransform` (lines 387-394). -/
def applyTextTransform (t : TextTransformCss) (s : String) : String :=
  match t with
  | .uppercase => toUpperStr s
  | .lowercase => toLowerStr s
  | .capitalize => capitalizeWords s
  | .unset => s

/-- Embeds `shouldSkipBold` and `SINGLE_WEIGHT_FONTS` (lines 339-346). -/
def SINGLE_WEIGHT_FONTS : List String := ["impact"]

def shouldSkipBold (fontFamily : String) : Bool :=
  let normalizedFont :=
    jsTrim ((splitOnChar ',' (removeQuotes (toLowerStr fontFamily))).headD "")
  SINGLE_WEIGHT_FONTS.contains normalizedFont

/-! ## Inline-formatting run parser (`parseInlineFormatting`, lines 527-652) -/

/-- The run-options object.  JavaScript objects only ever gain the keys
below in this code path, so an absent key is `none`. -/
structure Options where
  bold : Option Bool := none
  italic : Option Bool := none
  underline : Option Bool := none
  color : Option String := none
  transparency : Option ℤ := none
  fontSize : Option ℚ := none
  breakLine : Option Bool := none
  bulletIndent : Option ℚ := none
deriving DecidableEq, Repr

/-- Key-wise JavaScript spread `{...a, ...b}`: keys present in `b` win. -/
def ov {α : Type} (b a : Option α) : Option α :=
  match b with
  | some v => some v
  | none => a

def mergeOptions (a b : Options) : Options :=
  { bold := ov b.bold a.bold
    italic := ov b.italic a.italic
    underline := ov b.underline a.underline
    color := ov b.color a.color
    transparency := ov b.transparency a.transparency
    fontSize := ov b.fontSize a.fontSize
    breakLine := ov b.breakLine a.breakLine
    bulletIndent := ov b.bulletIndent a.bulletIndent }

/-- A text run. -/
structure Run where
  text : String
  options : Options
deriving DecidableEq, Repr

/-- Computed style of an inline element, restricted to the properties the
parser reads. -/
structure InlineComputed where
  fontWeight : ℕ := 400
  fontStyleItalic : Bool := false
  textDecoration : String := ""
  color : CssColor := .rgbSer ⟨0, 0, 0, 1, false⟩
  fontSizePx : ℚ := 16
  textTransform : TextTransformCss := .unset
  marginLeftPx : ℚ := 0
  marginRightPx : ℚ := 0
  marginTopPx : ℚ := 0
  marginBottomPx : ℚ := 0
  fontFamily : String := "Arial"
  className : String := ""
deriving DecidableEq, Repr

/-- The inline tags recognized by the parser (line 560); `other` stands for
any further element tag, which the parser ignores. -/
inductive ITag where
  | span | b | strong | i | em | u | other
deriving DecidableEq, Repr

def ITag.lower : ITag → String
  | .span => "span" | .b => "b" | .strong => "strong"
  | .i => "i" | .em => "em" | .u => "u" | .other => "div"

def isStyledTag : ITag → Bool
  | .other => false
  | _ => true

/- A node of the mixed-markup content of a text element.  (`INodes` is a
bespoke list so that the parser can recurse structurally through the
mutual shape.) -/
mutual
inductive INode where
  | textNode (s : String)
  | br
  | elem (tag : ITag) (style : InlineComputed) (children : INodes)
inductive INodes where
  | nil
  | cons (hd : INode) (tl : INodes)
end

/- `node.textContent` (concatenated descendant text). -/
mutual
def INode.textContent : INode → String
  | .textNode s => s
  | .br => ""
  | .elem _ _ cs => INodes.textContent cs
def INodes.textContent : INodes → String
  | .nil => ""
  | .cons n rest => n.textContent ++ INodes.textContent rest
end

/-- The check `computed.color` against the black serialization compares with
of opaque black. -/
def isComputedBlack (c : CssColor) : Bool := c = .rgbSer ⟨0, 0, 0, 1, false⟩

/-- The FontAwesome icon table (lines 564-573), in insertion order. -/
def iconMap : List (String × String) :=
  [("fa-arrow-right", "→"), ("fa-arrow-left", "←"),
   ("fa-arrow-down", "↓"), ("fa-arrow-up", "↑"),
   ("fa-chevron-right", "›"), ("fa-chevron-left", "‹"),
   ("fa-arrow-circle-right", "→"), ("fa-arrow-circle-left", "←")]

/-- First icon whose class occurs in the className (lines 575-582). -/
def faLookup (className : String) : Option String :=
  (iconMap.find? (fun p => hasSub className p.1)).map (fun p => p.2)

/-- Options applied to a recognized FontAwesome icon run (lines 585-592). -/
def faOptions (base : Options) (st : InlineComputed) : Options :=
  let options := base
  let options :=
    if ¬ isComputedBlack st.color then
      let colorRGB := getComputedRGBColor st.color
      let options := { options with color := some (rgbToHex colorRGB) }
      match extractAlpha colorRGB with
      | some t => { options with transparency := some t }
      | none => options
    else options
  { options with fontSize := some (pxToPoints st.fontSizePx) }

/-- Options accumulated on a styled inline element (lines 605-615). -/
def styledOptions (base : Options) (st : InlineComputed) : Options :=
  let options := base
  let isBold := st.fontWeight ≥ 600
  let options :=
    if isBold ∧ ¬ shouldSkipBold st.fontFamily then { options with bold := some true }
    else options
  let options :=
    if st.fontStyleItalic then { options with italic := some true } else options
  let options :=
    if hasSub st.textDecoration "underline" then { options with underline := some true }
    else options
  let options :=
    if ¬ isComputedBlack st.color then
      let colorRGB := getComputedRGBColor st.color
      let options := { options with color := some (rgbToHex colorRGB) }
      match extractAlpha colorRGB with
      | some t => { options with transparency := some t }
      | none => options
    else options
  { options with fontSize := some (pxToPoints st.fontSizePx) }

/-- The margin validation on inline elements (lines 624-635). -/
def marginMessage (tag : ITag) (which : String) : String :=
  "Inline element <" ++ tag.lower ++ "> has " ++ which ++
  " which is not supported in PowerPoint. Remove margin from inline elements."

def marginErrors (tag : ITag) (st : InlineComputed) : List String :=
  (if st.marginLeftPx > 0 then [marginMessage tag "margin-left"] else []) ++
  (if st.marginRightPx > 0 then [marginMessage tag "margin-right"] else []) ++
  (if st.marginTopPx > 0 then [marginMessage tag "margin-top"] else []) ++
  (if st.marginBottomPx > 0 then [marginMessage tag "margin-bottom"] else [])

/-- Parser state: the shared `runs` array and the captured `errors` array. -/
structure PState where
  runs : List Run
  errors : List String
deriving DecidableEq, Repr

/-- Modify the final element of a list. -/
def modifyLast {α : Type} (f : α → α) : List α → List α
  | [] => []
  | [a] => [f a]
  | a :: b :: rest => a :: modifyLast f (b :: rest)

/-- Appending a text fragment (lines 548-553): merged into the previous run
when the previous sibling was also a text node, pushed otherwise. -/
def pushOrMerge (prevIsText : Bool) (runs : List Run) (text : String)
    (base : Options) : List Run :=
  if prevIsText ∧ runs ≠ [] then
    modifyLast (fun r => { r with text := r.text ++ text }) runs
  else runs ++ [⟨text, base⟩]

/-- The end-of-call trim (lines 646-649): strip leading whitespace from the
first run and trailing whitespace from the last run of the shared array. -/
def trimRunEnds (runs : List Run) : List Run :=
  match runs with
  | [] => []
  | _ =>
      modifyLast (fun r => { r with text := trimTrailingWs r.text })
        (List.modifyHead (fun r => { r with text := trimLeadingWs r.text }) runs)

/- The recursive walk of `parseInlineFormatting` (lines 527-652), in
state-passing form: the source mutates one shared `runs` array across
recursive calls, modelled here by threading `PState`.

  * `innerTrim = true` reproduces the source exactly: every recursive call
    applies the end-of-call trim (lines 646-649) to the shared array before
    its caller continues.
  * `innerTrim = false` is the reading of the trimming rule in the spec and
    in claim C7, where only the outermost call trims.

`piNode` handles one child of the `forEach` body and returns the state
together with the updated `prevNodeIsText`; `piNodes` is the `forEach`
loop itself. -/
mutual
def piNode (innerTrim : Bool) (base : Options) (tt : TextTransformCss)
    (preserve : Bool) (prev : Bool) (st : PState) : INode → PState × Bool
  | .textNode s =>
      if preserve ∧ ¬ containsChar s '\n' ∧ jsTrim s = "" then
        -- pure-whitespace skip in preformatted mode (lines 538-542);
        -- the early return leaves prevNodeIsText unchanged
        (st, prev)
      else
        let text := if preserve then s else collapseWs s
        let text := applyTextTransform tt text
        ({ st with runs := pushOrMerge prev st.runs text base }, true)
  | .br =>
      ({ st with runs := pushOrMerge prev st.runs "\n" base }, true)
  | .elem tag cstyle children =>
      if jsTrim children.textContent = "" then (st, false)
      else if isStyledTag tag then
        match
          (if tag = ITag.i ∧ hasSub cstyle.className "fa-" then
            faLookup cstyle.className
          else none) with
        | some ch =>
            -- FontAwesome icon special case (lines 562-602)
            let options := faOptions base cstyle
            let runs :=
              if prev ∧ st.runs ≠ [] then
                modifyLast
                  (fun r =>
                    { text := r.text ++ " " ++ ch
                      options := mergeOptions r.options options }) st.runs
              else st.runs ++ [⟨ch, options⟩]
            ({ st with runs := runs }, true)
        | none =>
            let options := styledOptions base cstyle
            let tt2 := if cstyle.textTransform ≠ .unset then cstyle.textTransform else tt
            let st := { st with errors := st.errors ++ marginErrors tag cstyle }
            let st2 := piNodes innerTrim options tt2 preserve children false st
            let st3 := if innerTrim then { st2 with runs := trimRunEnds st2.runs } else st2
            (st3, false)
      else (st, false)
  termination_by structural n => n
def piNodes (innerTrim : Bool) (base : Options) (tt : TextTransformCss)
    (preserve : Bool) : INodes → Bool → PState → PState
  | .nil, _, st => st
  | .cons n rest, prev, st =>
      let r := piNode innerTrim base tt preserve prev st n
      piNodes innerTrim base tt preserve rest r.2 r.1
  termination_by structural l _ _ => l
end

/-- Embeds `parseInlineFormatting` (lines 527-652): walk the children, apply the
final trim, and filter empty runs (line 651). -/
def parseInlineFormatting (children : INodes) (baseOptions : Options)
    (tt : TextTransformCss) (preserveSpaces : Bool) : PState :=
  let st := piNodes true baseOptions tt preserveSpaces children false ⟨[], []⟩
  let st := { st with runs := trimRunEnds st.runs }
  { st with runs := st.runs.filter (fun r => r.text ≠ "") }

/-- Modelled from the spec: the same parser but with the whitespace rule as
claim C7 states it — leading whitespace stripped only from the first run
and trailing whitespace only from the last run of the final sequence, so
interior runs keep their whitespace. -/
def parseInlineFormattingSpecTrim (children : INodes) (baseOptions : Options)
    (tt : TextTransformCss) (preserveSpaces : Bool) : PState :=
  let st := piNodes false baseOptions tt preserveSpaces children false ⟨[], []⟩
  let st := { st with runs := trimRunEnds st.runs }
  { st with runs := st.runs.filter (fun r => r.text ≠ "") }

/-! ## Block-level text styles -/

/-- Computed style of a block-level element, restricted to the properties
the extractor reads.  `lineHeightPx = none` stands for the computed value
`normal`, whose conversion is not a number and is falsy downstream. -/
structure BlockComputed where
  fontSizePx : ℚ := 16
  fontFamily : String := "Arial"
  color : CssColor := .rgbSer ⟨0, 0, 0, 1, false⟩
  textAlign : String := "start"
  lineHeightPx : Option ℚ := none
  marginTopPx : ℚ := 0
  marginBottomPx : ℚ := 0
  paddingTopPx : ℚ := 0
  paddingRightPx : ℚ := 0
  paddingBottomPx : ℚ := 0
  paddingLeftPx : ℚ := 0
deriving DecidableEq, Repr

/-- The style record attached to extracted text and list blocks. -/
structure TextStyle where
  fontSize : ℚ
  fontFace : String
  color : String
  transparency : Option ℤ := none
  align : String
  lineSpacing : Option ℚ := none
  paraSpaceBefore : ℚ := 0
  paraSpaceAfter : ℚ := 0
  margin : List ℚ := []
  rotate : Option ℚ := none
  bold : Bool := false
  italic : Bool := false
  underline : Bool := false
deriving DecidableEq, Repr

/-- Embeds the font-face normalization (split on comma, strip quotes, trim). -/
def fontFaceOf (fontFamily : String) : String :=
  jsTrim (removeQuotes ((splitOnChar ',' fontFamily).headD ""))

/-- Embeds the textAlign mapping of start to left (line 1089 and 1359). -/
def alignOf (textAlign : String) : String :=
  if textAlign = "start" then "left" else textAlign

/-- The `baseStyle` of a text element (lines 1355-1373): font size floored
at 6pt, margins built from the paddings in `[left, right, bottom, top]`
order, transparency only when the color carries an alpha component. -/
def extractBaseStyle (computed : BlockComputed) : TextStyle :=
  let style : TextStyle :=
    { fontSize := max (pxToPoints computed.fontSizePx) 6
      fontFace := fontFaceOf computed.fontFamily
      color := rgbToHex (getComputedRGBColor computed.color)
      align := alignOf computed.textAlign
      lineSpacing := computed.lineHeightPx.map pxToPoints
      paraSpaceBefore := pxToPoints computed.marginTopPx
      paraSpaceAfter := pxToPoints computed.marginBottomPx
      margin := [pxToPoints computed.paddingLeftPx, pxToPoints computed.paddingRightPx,
                 pxToPoints computed.paddingBottomPx, pxToPoints computed.paddingTopPx] }
  match extractAlpha (getComputedRGBColor computed.color) with
  | some t => { style with transparency := some t }
  | none => style

/-- The style of a list block (lines 1084-1095): font size floored at 6pt,
line spacing only when the computed line-height is not `normal`, margin
`[marginLeft, 0, 0, 0]` with the bullet position scaled from the list
padding (lines 1050-1056). -/
def extractListStyle (computed : BlockComputed) (ulPaddingLeftPx : ℚ) : TextStyle :=
  let marginLeft := pxToPoints ulPaddingLeftPx * (7/10)
  { fontSize := max (pxToPoints computed.fontSizePx) 6
    fontFace := fontFaceOf computed.fontFamily
    color := rgbToHex (getComputedRGBColor computed.color)
    transparency := extractAlpha (getComputedRGBColor computed.color)
    align := alignOf computed.textAlign
    lineSpacing := computed.lineHeightPx.map pxToPoints
    paraSpaceBefore := 0
    paraSpaceAfter := pxToPoints computed.marginBottomPx
    margin := [marginLeft, 0, 0, 0] }

/-! ## Table extraction (`extractSlideData`, lines 1104-1316) -/

/-- A table cell as rendered: header/data kind, rendered width, and the
computed styles the extractor reads.  The inline-formatting branch
(lines 1238-1256) affects only the text payload of a cell, not the cell
count or any font size, and the payload is modelled as the plain trimmed
text content. -/
structure TCell where
  isTH : Bool := false
  widthPx : ℚ := 0
  text : String := ""
  fontSizePx : ℚ := 16
  fontWeight : ℕ := 400
  fontFamily : String := "Arial"
  color : CssColor := .rgbSer ⟨0, 0, 0, 1, false⟩
  paddingTopPx : ℚ := 0
  paddingRightPx : ℚ := 0
  paddingBottomPx : ℚ := 0
  paddingLeftPx : ℚ := 0
deriving DecidableEq, Repr

/-- A table row; `inThead` records whether its parent section is `thead`. -/
structure TRow where
  inThead : Bool := false
  cells : List TCell := []
deriving DecidableEq, Repr

/-- A rendered `<table>` element with the computed style the extractor
reads at table level. -/
structure TableEl where
  rect : Rect
  rows : List TRow
  styleFontSizePx : ℚ := 16
  styleFontFamily : String := "Arial"
  styleColor : RgbaStr := ⟨0, 0, 0, 1, false⟩
  styleBorderColor : RgbaStr := ⟨0, 0, 0, 1, false⟩
  styleBorderWidthPx : ℚ := 0
deriving DecidableEq, Repr

/-- The per-cell font size of a table cell: `pxToPoints * 0.85` scaling,
floored at 6pt (lines 1169 and 1232). -/
def cellFontSize (fontSizePx : ℚ) : ℚ := max (pxToPoints fontSizePx * (17/20)) 6

/-- The extracted data of one cell (header cells, lines 1156-1198; data
cells, lines 1217-1274; fills omitted — no claim concerns cell fills). -/
structure CellData where
  text : String
  bold : Bool
  color : String
  fontSize : ℚ
  fontFace : String
  margin : List ℚ
deriving DecidableEq, Repr

def extractCellData (cell : TCell) : CellData :=
  { text := jsTrim cell.text
    bold := cell.fontWeight ≥ 600 ∧ ¬ shouldSkipBold cell.fontFamily
    color := rgbToHex (getComputedRGBColor cell.color)
    fontSize := cellFontSize cell.fontSizePx
    fontFace := fontFaceOf cell.fontFamily
    margin := [pxToPoints cell.paddingTopPx, pxToPoints cell.paddingRightPx,
               pxToPoints cell.paddingBottomPx, pxToPoints cell.paddingLeftPx] }

/-- The style record attached to the table element itself
(lines 1291-1300): note the font size is the raw conversion, with no 6pt
floor. -/
structure TableStyle where
  fontSize : ℚ
  fontFace : String
  color : String
  transparency : Option ℤ
  borderColor : String
  borderWidth : ℚ
deriving DecidableEq, Repr

/-- The extracted table element. -/
structure TableElement where
  data : List (List CellData)
  colWidths : List ℚ
  position : PosSize
  style : TableStyle
deriving DecidableEq, Repr

/-- Column-width ratios (lines 1118-1146): the rendered width of each
header cell (from `thead`, else header-tag cells of the first data row,
else its data cells) divided by the rendered table width. -/
def tableColWidths (t : TableEl) (rect : Rect) : List ℚ :=
  let dataRows := t.rows.filter (fun r => ¬ r.inThead)
  let headerRow := t.rows.find? (fun r => r.inThead)
  let tableWidth := rect.width
  match headerRow with
  | some hr => (hr.cells.filter (fun c => c.isTH)).map (fun c => c.widthPx / tableWidth)
  | none =>
      match dataRows with
      | [] => []
      | first :: _ =>
          let thElements := first.cells.filter (fun c => c.isTH)
          if thElements ≠ [] then thElements.map (fun c => c.widthPx / tableWidth)
          else (first.cells.filter (fun c => ¬ c.isTH)).map (fun c => c.widthPx / tableWidth)

/-- Row data (lines 1148-1276): the header row (when a `thead` exists)
followed by every non-`thead` row; a row containing header-tag cells uses
exactly those, otherwise its data cells. -/
def tableData (t : TableEl) : List (List CellData) :=
  let dataRows := t.rows.filter (fun r => ¬ r.inThead)
  let headerRow := t.rows.find? (fun r => r.inThead)
  let headerPart :=
    match headerRow with
    | some hr => [(hr.cells.filter (fun c => c.isTH)).map extractCellData]
    | none => []
  headerPart ++
    dataRows.map (fun row =>
      let hasTh := row.cells.any (fun c => c.isTH)
      let cells := if hasTh then row.cells.filter (fun c => c.isTH)
                   else row.cells.filter (fun c => ¬ c.isTH)
      cells.map extractCellData)

/-- Embeds `extractSlideData`, table branch (lines 1104-1316), given the already
re-based rectangle of the table. -/
def extractTable (offset : ContainerOffset) (t : TableEl) : TableElement :=
  let rect := adjustRect offset t.rect
  { data := tableData t
    colWidths := tableColWidths t rect
    position := ⟨pxToInch rect.left, pxToInch rect.top,
                 pxToInch rect.width, pxToInch rect.height⟩
    style :=
      { fontSize := pxToPoints t.styleFontSizePx
        fontFace := fontFaceOf t.styleFontFamily
        color := rgbToHex t.styleColor
        transparency := extractAlpha t.styleColor
        borderColor := rgbToHex t.styleBorderColor
        borderWidth := pxToPoints t.styleBorderWidthPx } }

/-! ## The slide data model and the emitter (`addElements`, lines 179-329) -/

/-- The extracted background (lines 671-691). -/
inductive Background where
  | image (path : String)
  | color (value : String)
deriving DecidableEq, Repr

/-- What `addBackground` assigns to `targetSlide.background`. -/
inductive BgSetting where
  | path (p : String)
  | color (c : String)
deriving DecidableEq, Repr

/-- Strip a leading `file://` (lines 163-165); the `decodeURIComponent`
step is the identity on the paths occurring in this development. -/
def stripFileUrl (p : String) : String :=
  if leadsWith p.toList ("file://".toList) then String.mk (p.toList.drop 7) else p

/-- Embeds `addBackground` (lines 161-176). -/
def addBackground : Background → Option BgSetting
  | .image p => if p ≠ "" then some (.path (stripFileUrl p)) else none
  | .color v => if v ≠ "" then some (.color v) else none

/-- A placeholder record `{id, x, y, w, h}` (lines 854-860). -/
structure Placeholder where
  id : String
  x : ℚ
  y : ℚ
  w : ℚ
  h : ℚ
deriving DecidableEq, Repr

/-- An extracted element, restricted to the fields the emitter reads. -/
inductive Element where
  | image (position : PosSize) (src : String)
  | line (x1 y1 x2 y2 : ℚ) (color : String) (width : ℚ)
  | shape (position : PosSize) (text : String) (fill : Option String)
      (transparency : Option ℤ) (rectRadius : ℚ)
  | list (position : PosSize) (style : TextStyle) (items : List Run)
  | table (position : PosSize) (data : List (List CellData)) (colWidths : List ℚ)
      (style : TableStyle)
  | textBlock (tag : String) (position : PosSize) (style : TextStyle) (text : String)
deriving DecidableEq, Repr

/-- One call to a deck-building primitive, recording the geometry passed. -/
inductive DeckOp where
  | addImage (x y w h : ℚ)
  | addShape (x y w h : ℚ)
  | addText (x y w h : ℚ)
  | addTable (x y w h : ℚ)
deriving DecidableEq, Repr

/-- Embeds `el.style.lineSpacing || el.style.fontSize * 1.2` (line 278): null,
`0` and NaN (a `normal` line-height) all fall back. -/
def lineHeightOf (style : TextStyle) : ℚ :=
  match style.lineSpacing with
  | some v => if v = 0 then style.fontSize * (6/5) else v
  | none => style.fontSize * (6/5)

/-- The single-line widening of the default text branch (lines 277-301):
a box no taller than 1.5 line heights is widened by 2% of its width,
rightward for left alignment, leftward for right alignment, and
symmetrically for center alignment; otherwise `x`/`w` pass through. -/
def adjustedTextXW (pos : PosSize) (style : TextStyle) : ℚ × ℚ :=
  let lineHeight := lineHeightOf style
  let isSingleLine := pos.h ≤ lineHeight * (3/2)
  if isSingleLine then
    let widthIncrease := pos.w * (1/50)
    if style.align = "center" then (pos.x - widthIncrease / 2, pos.w + widthIncrease)
    else if style.align = "right" then (pos.x - widthIncrease, pos.w + widthIncrease)
    else (pos.x, pos.w + widthIncrease)
  else (pos.x, pos.w)

/-- The one deck primitive called for each element variant
(`addElements`, lines 180-327): images via `addImage`, lines via
`addShape`, shapes and lists and text via `addText` (a shape is emitted as
a styled empty text box, line 230), tables via `addTable`. -/
def addElementOp : Element → DeckOp
  | .image pos _ => .addImage pos.x pos.y pos.w pos.h
  | .line x1 y1 x2 y2 _ _ => .addShape x1 y1 (x2 - x1) (y2 - y1)
  | .shape pos _ _ _ _ => .addText pos.x pos.y pos.w pos.h
  | .list pos _ _ => .addText pos.x pos.y pos.w pos.h
  | .table pos _ _ _ => .addTable pos.x pos.y pos.w pos.h
  | .textBlock _ pos style _ =>
      let xw := adjustedTextXW pos style
      .addText xw.1 pos.y xw.2 pos.h

/-- Embeds `addElements` (lines 179-329) as the sequence of primitive calls. -/
def addElements (elements : List Element) : List DeckOp :=
  elements.map addElementOp

/-! ## Validation aggregation and the `html2pptx` tail (lines 1508-1579) -/

/-- The `extractSlideData` result. -/
structure SlideData where
  background : Background
  elements : List Element
  placeholders : List Placeholder
  errors : List String

/-- Kernel-reducible `String.intercalate "\n"`. -/
def joinNl : List String → String
  | [] => ""
  | [s] => s
  | s :: rest => s ++ "\n" ++ joinNl rest

/-- Table structural-validation messages (lines 1530-1551); the prose is
kept except that contractions are expanded. -/
def msgNoColWidths (pos : PosSize) : String :=
  "Table at position (" ++ jsToFixed 2 pos.x ++ "\", " ++ jsToFixed 2 pos.y ++
  "\") has no column widths. Possible cause: table without <thead> and first row does not contain <td> elements. Add <thead> wrapper around header row or ensure data rows contain <td> elements."

def msgNoData (pos : PosSize) : String :=
  "Table at position (" ++ jsToFixed 2 pos.x ++ "\", " ++ jsToFixed 2 pos.y ++
  "\") has no data."

def msgBadRow (headerCols rowNumber rowCols : ℕ) : String :=
  "Table has inconsistent column count: \"Header\" has " ++ toString headerCols ++
  " columns but \"Row " ++ toString rowNumber ++ "\" has " ++ toString rowCols ++
  " columns."

/-- The `el.data.forEach((row, rowIdx) => ...)` cell-count check
(lines 1545-1552). -/
def rowCountErrors (expectedCols : ℕ) (rowIdx : ℕ) : List (List CellData) → List String
  | [] => []
  | row :: rest =>
      (if row.length ≠ expectedCols then [msgBadRow expectedCols (rowIdx + 1) row.length]
       else []) ++ rowCountErrors expectedCols (rowIdx + 1) rest

/-- The per-table structural validation of `html2pptx` (lines 1528-1555):
missing column widths, missing data, and per-row cell-count mismatches. -/
def tableErrorsFor : Element → List String
  | .table pos data colWidths _ =>
      (if colWidths = [] then [msgNoColWidths pos] else []) ++
      (if data = [] then [msgNoData pos] else []) ++
      (if data ≠ [] ∧ colWidths ≠ [] then rowCountErrors colWidths.length 0 data
       else [])
  | _ => []

def tableStructureErrors (elements : List Element) : List String :=
  List.flatten (elements.map tableErrorsFor)

/-- The numbered composite message of the spec ("numbered list of all
findings", lines 1561): one `  i. finding` line per finding. -/
def specNumberedMessage (errs : List String) : String :=
  "Multiple validation errors found:\n" ++
  joinNl (errs.enum.map (fun p => "  " ++ toString (p.1 + 1) ++ ". " ++ p.2))

/-- The thrown message (lines 1559-1561): the lone finding verbatim when
there is exactly one, the numbered composite otherwise. -/
def composeErrorMessage (errs : List String) : String :=
  if errs.length = 1 then errs.headD "" else specNumberedMessage errs

/-- The full accumulated validation-error list, in push order
(lines 1508-1555): body-dimension findings, layout-size findings,
bottom-margin findings, extraction findings, table-structure findings. -/
def collectValidationErrors (bodyErrors dimensionErrors textBoxErrors : List String)
    (slideData : SlideData) : List String :=
  bodyErrors ++ dimensionErrors ++ textBoxErrors ++ slideData.errors ++
    tableStructureErrors slideData.elements

/-- The observable outcome of a successful `html2pptx` run: whether a new
slide was added, the background assignment, and the primitive calls. -/
structure EmitResult where
  slideAdded : Bool
  background : Option BgSetting
  ops : List DeckOp
  placeholders : List Placeholder
  checkMode : Bool
deriving DecidableEq, Repr

/-- The tail of `html2pptx` after extraction (lines 1508-1579): aggregate
all findings, throw one composite error when any exist (before any slide
is added, any background set, or any element-adding primitive called),
short-circuit in check mode, and otherwise add the slide (unless one was
supplied), set the background, and add every element. -/
def html2pptxFinish (bodyErrors dimensionErrors textBoxErrors : List String)
    (slideData : SlideData) (checkMode slideProvided : Bool) :
    Except String EmitResult :=
  let validationErrors :=
    collectValidationErrors bodyErrors dimensionErrors textBoxErrors slideData
  if validationErrors ≠ [] then .error (composeErrorMessage validationErrors)
  else if checkMode then .ok ⟨false, none, [], slideData.placeholders, true⟩
  else .ok ⟨!slideProvided, addBackground slideData.background,
            addElements slideData.elements, slideData.placeholders, false⟩

/-! ## Predicates and concrete inputs used by the theorems -/

/-- Content made of text and line-break nodes only (no styled children). -/
def INodes.allTextOrBr : INodes → Bool
  | .nil => true
  | .cons (.textNode _) rest => INodes.allTextOrBr rest
  | .cons .br rest => INodes.allTextOrBr rest
  | .cons (.elem _ _ _) _ => false

/-- The input `<p><b>bold </b>tail</p>`: a bold child whose text ends in a space,
followed by a plain text node. -/
def exBoldTail : INodes :=
  .cons (.elem .b { fontWeight := 700 } (.cons (.textNode "bold ") .nil))
    (.cons (.textNode "tail") .nil)

/-- A rendered table whose single header cell spans half the table width
(realizable with border spacing or fixed cell widths), with table-level
computed font-size 4px: one header row and one matching data row. -/
def cexTable : TableEl :=
  { rect := ⟨0, 0, 100, 50⟩
    rows := [{ inThead := true, cells := [{ isTH := true, widthPx := 50, text := "H" }] },
             { inThead := false, cells := [{ isTH := false, widthPx := 50, text := "d" }] }]
    styleFontSizePx := 4 }

def cexTableExtracted : TableElement := extractTable ⟨0, 0⟩ cexTable

/-- The extracted table placed in a document with no other findings. -/
def cexTableElement : Element :=
  .table cexTableExtracted.position cexTableExtracted.data
    cexTableExtracted.colWidths cexTableExtracted.style

def cexTableSlide : SlideData :=
  { background := .color "FFFFFF", elements := [cexTableElement],
    placeholders := [], errors := [] }

/-- A document whose scroll height exceeds its effective height by 300px,
i.e. by 150pt at the overflow-check scale of 0.5pt/px. -/
def cexOverflowDims : BodyDims :=
  { width := 960, height := 720, scrollWidth := 960, scrollHeight := 1020,
    containerWidth := none, containerHeight := none }

/-- A document whose extraction produced exactly one finding. -/
def cexSingleFindingSlide : SlideData :=
  { background := .color "FFFFFF", elements := [], placeholders := [],
    errors := ["content overflow finding"] }

/-! # Theorems -/

/-- C2: for a container background color with alpha 0.7, `extractAlpha`
itself yields the 0-100 transparency 30, but the shape-fill transparency
actually computed for the shape re-applies `round((1 - x) * 100)` to that
30 and stores -2900 — the code contradicts the claimed (and intended)
0-100 transparency convention. -/
theorem c2_shape_transparency_bug :
    extractAlpha ⟨16, 32, 48, 7/10, true⟩ = some 30 ∧
    shapeTransparency ⟨16, 32, 48, 7/10, true⟩ 1 = some (-2900) ∧
    ¬ ((0:ℤ) ≤ -2900 ∧ (-2900:ℤ) ≤ 100) := by
  refine ⟨?_, ?_, by norm_num⟩
  · norm_num [extractAlpha, jsRound]
  · norm_num [shapeTransparency, extractAlpha, getComputedRGBColor, jsRound]

/-- C5: for a rotation of exactly 90 or 270 degrees, the reported width is
the rendered height, the reported height is the rendered width, and the
reported box keeps the center of the rendered box. -/
theorem c5_rotated_box_swap (ow oh : ℚ) (rect : Rect) (r : Option ℚ)
    (h : r = some 90 ∨ r = some 270) :
    (getPositionAndSize ow oh rect r).w = rect.height ∧
    (getPositionAndSize ow oh rect r).h = rect.width ∧
    (getPositionAndSize ow oh rect r).x + (getPositionAndSize ow oh rect r).w / 2
      = rect.left + rect.width / 2 ∧
    (getPositionAndSize ow oh rect r).y + (getPositionAndSize ow oh rect r).h / 2
      = rect.top + rect.height / 2 := by
  rcases h with h | h <;> subst h <;>
    refine ⟨by simp [getPositionAndSize], by simp [getPositionAndSize], ?_, ?_⟩ <;>
    simp [getPositionAndSize]

/-- C5 witness at a concrete 90-degree box. -/
theorem c5_rotated_box_swap_witness :
    (getPositionAndSize 0 0 ⟨0, 0, 10, 100⟩ (some 90)).w = (Rect.mk 0 0 10 100).height ∧
    (getPositionAndSize 0 0 ⟨0, 0, 10, 100⟩ (some 90)).h = (Rect.mk 0 0 10 100).width ∧
    (getPositionAndSize 0 0 ⟨0, 0, 10, 100⟩ (some 90)).x
        + (getPositionAndSize 0 0 ⟨0, 0, 10, 100⟩ (some 90)).w / 2
      = (Rect.mk 0 0 10 100).left + (Rect.mk 0 0 10 100).width / 2 ∧
    (getPositionAndSize 0 0 ⟨0, 0, 10, 100⟩ (some 90)).y
        + (getPositionAndSize 0 0 ⟨0, 0, 10, 100⟩ (some 90)).h / 2
      = (Rect.mk 0 0 10 100).top + (Rect.mk 0 0 10 100).height / 2 :=
  c5_rotated_box_swap 0 0 ⟨0, 0, 10, 100⟩ (some 90) (Or.inl rfl)

/-- C9: a text element whose box height is at most 1.5 line heights (line
height falling back to fontSize x 1.2) is widened by 2% of its width —
rightward for left alignment, leftward for right alignment, symmetrically
for center — while a taller box passes x and w through; y and h are always
passed unchanged to the deck call. -/
theorem c9_single_line_widening (pos : PosSize) (style : TextStyle) :
    (pos.h ≤ lineHeightOf style * (3/2) →
      (style.align = "center" →
        adjustedTextXW pos style
          = (pos.x - pos.w * (1/50) / 2, pos.w + pos.w * (1/50))) ∧
      (style.align = "right" →
        adjustedTextXW pos style = (pos.x - pos.w * (1/50), pos.w + pos.w * (1/50))) ∧
      (style.align = "left" →
        adjustedTextXW pos style = (pos.x, pos.w + pos.w * (1/50)))) ∧
    (¬ pos.h ≤ lineHeightOf style * (3/2) → adjustedTextXW pos style = (pos.x, pos.w)) ∧
    (∀ tag text, addElementOp (.textBlock tag pos style text)
      = .addText (adjustedTextXW pos style).1 pos.y (adjustedTextXW pos style).2 pos.h) := by
  refine ⟨fun hs => ⟨fun hc => ?_, fun hr => ?_, fun hl => ?_⟩, fun hm => ?_,
    fun tag text => rfl⟩
  · simp [adjustedTextXW, hs, hc]
  · simp [adjustedTextXW, hs, hr]
  · simp [adjustedTextXW, hs, hl]
  · simp [adjustedTextXW, hm]

/-- C9 witness: a concrete single-line left-aligned box is widened to the
right. -/
theorem c9_single_line_widening_witness :
    adjustedTextXW ⟨1, 1, 10, 1⟩
      { fontSize := 12, fontFace := "Arial", color := "000000", align := "left" }
      = (1, 10 + 10 * (1/50)) :=
  ((c9_single_line_widening ⟨1, 1, 10, 1⟩
      { fontSize := 12, fontFace := "Arial", color := "000000", align := "left" }).1
    (by norm_num [lineHeightOf])).2.2 rfl

/-- C10 (amended): `adjustRect` clamps the container-relative left/top at
zero (taking width and height unclamped), so placeholders and non-rotated
elements report non-negative coordinates; rotation handling happens after
the clamp and may re-center the box below zero. -/
theorem c10_adjust_rect_clamps (off : ContainerOffset) (rect raw : Rect) (ow oh : ℚ) :
    0 ≤ (adjustRect off rect).left ∧ 0 ≤ (adjustRect off rect).top ∧
    (adjustRect off rect).width = rect.width ∧
    (adjustRect off rect).height = rect.height ∧
    (rect.left ≤ off.x → (adjustRect off rect).left = 0) ∧
    (rect.top ≤ off.y → (adjustRect off rect).top = 0) ∧
    0 ≤ (extractedTextPos off raw ow oh none).x ∧
    0 ≤ (extractedTextPos off raw ow oh none).y ∧
    0 ≤ (placeholderRect off raw).x ∧ 0 ≤ (placeholderRect off raw).y := by
  refine ⟨le_max_left 0 _, le_max_left 0 _, rfl, rfl,
    fun h => max_eq_left (by linarith), fun h => max_eq_left (by linarith),
    ?_, ?_, ?_, ?_⟩ <;>
exact div_nonneg (le_max_left 0 _) (by norm_num [PX_PER_IN])

/-- C10 witness: a box starting left of and above the container origin is
reported at the origin. -/
theorem c10_adjust_rect_clamps_witness :
    (adjustRect ⟨5, 7⟩ ⟨3, 2, 10, 20⟩).left = 0 ∧
    (adjustRect ⟨5, 7⟩ ⟨3, 2, 10, 20⟩).top = 0 :=
  ⟨(c10_adjust_rect_clamps ⟨5, 7⟩ ⟨3, 2, 10, 20⟩ ⟨0, 0, 0, 0⟩ 0 0).2.2.2.2.1 (by norm_num),
   (c10_adjust_rect_clamps ⟨5, 7⟩ ⟨3, 2, 10, 20⟩ ⟨0, 0, 0, 0⟩ 0 0).2.2.2.2.2.1 (by norm_num)⟩

/-- C10 counterexample: a 90-degree-rotated text element whose adjusted
rectangle starts at the container origin is still reported at a negative
x, because the width/height swap re-centers the box after the clamp. -/
theorem c10_rotated_negative_x_cex :
    (extractedTextPos ⟨0, 0⟩ ⟨0, 0, 10, 100⟩ 10 100 (some 90)).x = -45/96 ∧
    ((-45 : ℚ)/96) < 0 := by
  constructor
  · norm_num [extractedTextPos, adjustRect, getPositionAndSize, pxToInch, PX_PER_IN]
  · norm_num

/-- C8 (amended): text blocks, list blocks and table cells carry the 6pt
font-size floor. -/
theorem c8_font_size_floor :
    (∀ c : BlockComputed, 6 ≤ (extractBaseStyle c).fontSize) ∧
    (∀ (c : BlockComputed) (p : ℚ), 6 ≤ (extractListStyle c p).fontSize) ∧
    (∀ cell : TCell, 6 ≤ (extractCellData cell).fontSize) := by
  refine ⟨fun c => ?_, fun c p => ?_, fun cell => ?_⟩
  · simp only [extractBaseStyle]
    split <;> exact le_max_right _ _
  · exact le_max_right _ _
  · exact le_max_right _ _

/-- C8 counterexample: the table block at computed font-size 4px stores the
raw conversion 2.8pt in its element-level style — no 6pt floor. -/
theorem c8_table_style_unfloored_cex :
    cexTableExtracted.style.fontSize = 14/5 ∧ ¬ (6 ≤ (14 : ℚ)/5) := by
  constructor
  · norm_num [cexTableExtracted, extractTable, cexTable, pxToPoints, PT_PER_PX_EVAL]
  · norm_num

/-- The JavaScript remainder by 360 lies strictly between -360 and 360. -/
lemma jsMod_360_bounds (a : ℚ) : -360 < jsMod a 360 ∧ jsMod a 360 < 360 := by
  unfold jsMod jsTrunc
  split
  · have h1 : ((⌊a / 360⌋ : ℚ)) ≤ a / 360 := Int.floor_le _
    have h2 : a / 360 < ⌊a / 360⌋ + 1 := Int.lt_floor_add_one _
    have h360 : (360 : ℚ) * (a / 360) = a := by field_simp
    constructor <;> nlinarith
  · have h1 : a / 360 ≤ ((⌈a / 360⌉ : ℚ)) := Int.le_ceil _
    have h2 : ((⌈a / 360⌉ : ℚ)) < a / 360 + 1 := Int.ceil_lt_add_one _
    have h360 : (360 : ℚ) * (a / 360) = a := by field_simp
    constructor <;> nlinarith

/-- Evaluation of a non-negative rational remainder below the modulus. -/
lemma jsMod_of_nonneg_lt (a : ℚ) (h0 : 0 ≤ a) (h1 : a < 360) : jsMod a 360 = a := by
  unfold jsMod jsTrunc
  have hfloor : ⌊a / 360⌋ = 0 := by
    rw [Int.floor_eq_zero_iff]
    constructor
    · positivity
    · rw [div_lt_one (by norm_num)]; exact h1
  rw [if_pos (by positivity), hfloor]
  ring

/-- Any value `normalizeAngle` returns lies in `[0, 360)` and is not 0. -/
lemma normalizeAngle_bounds (x a : ℚ) (h : normalizeAngle x = some a) :
    0 ≤ a ∧ a < 360 ∧ a ≠ 0 := by
  unfold normalizeAngle at h
  have hb := jsMod_360_bounds x
  by_cases hneg : jsMod x 360 < 0
  · simp only [if_pos hneg] at h
    split_ifs at h with h0
    have ha := Option.some.inj h
    subst ha
    exact ⟨by linarith, by linarith, h0⟩
  · simp only [if_neg hneg] at h
    split_ifs at h with h0
    have ha := Option.some.inj h
    subst ha
    exact ⟨by linarith [not_lt.mp hneg], hb.2, h0⟩

/-- Evaluation: `normalizeAngle` on a value already in `(0, 360)` is the identity. -/
lemma normalizeAngle_eval (x : ℚ) (h0 : 0 < x) (h1 : x < 360) :
    normalizeAngle x = some x := by
  unfold normalizeAngle
  simp only [jsMod_of_nonneg_lt x (le_of_lt h0) h1]
  simp only [if_neg (not_lt.mpr (le_of_lt h0)), if_neg (ne_of_gt h0)]

/-- C4: the derived rotation is always either absent or a value in
`[0, 360)` that is never an explicit zero; `vertical-rl` alone gives 90,
`vertical-lr` alone gives 270, and `vertical-rl` plus `rotate(10deg)`
gives 100. -/
theorem c4_rotation_normalized :
    (∀ (wm : WritingMode) (t : TransformVal) (a : ℚ),
      getRotation wm t = some a → 0 ≤ a ∧ a < 360 ∧ a ≠ 0) ∧
    getRotation .verticalRl .noTransform = some 90 ∧
    getRotation .verticalLr .noTransform = some 270 ∧
    getRotation .verticalRl (.rotate 10) = some 100 ∧
    getRotation .verticalRl (.rotate (-90)) = none := by
  refine ⟨fun wm t a h => ?_, ?_, ?_, ?_, ?_⟩
  · unfold getRotation at h
    exact normalizeAngle_bounds _ a h
  · exact normalizeAngle_eval 90 (by norm_num) (by norm_num)
  · exact normalizeAngle_eval 270 (by norm_num) (by norm_num)
  · show normalizeAngle (90 + 10) = some 100
    rw [show (90 : ℚ) + 10 = 100 by norm_num]
    exact normalizeAngle_eval 100 (by norm_num) (by norm_num)
  · show normalizeAngle (90 + -90) = none
    rw [show (90 : ℚ) + -90 = 0 by norm_num]
    unfold normalizeAngle
    rw [jsMod_of_nonneg_lt 0 (by norm_num) (by norm_num)]
    norm_num

/-- C4 witness: a concrete rotation from writing-mode plus transform is in
range and non-zero. -/
theorem c4_rotation_normalized_witness :
    0 ≤ (135 : ℚ) ∧ (135 : ℚ) < 360 ∧ (135 : ℚ) ≠ 0 :=
  c4_rotation_normalized.1 .verticalRl (.rotate 45) 135
    (by
      show normalizeAngle (90 + 45) = some 135
      rw [show (90 : ℚ) + 45 = 135 by norm_num]
      exact normalizeAngle_eval 135 (by norm_num) (by norm_num))

/-- C3 (amended): the vertical-overflow finding fires exactly when
`(scrollHeight - effectiveHeight - 1)` pixels — note the extra 1px — scale
to more than 100pt, reporting that scaled value minus the tolerance, and
nothing about the horizontal dimensions ever produces or changes a
finding. -/
theorem c3_overflow_amended (d : BodyDims) :
    (getBodyDimensionsErrors d ≠ [] ↔
      (d.scrollHeight - effectiveHeight d - 1) * PT_PER_PX_MODULE > 100) ∧
    ((d.scrollHeight - effectiveHeight d - 1) * PT_PER_PX_MODULE > 100 →
      getBodyDimensionsErrors d =
        [overflowMessage
          ((d.scrollHeight - effectiveHeight d - 1) * PT_PER_PX_MODULE - 100)]) ∧
    (∀ w sw cw, getBodyDimensionsErrors
        { d with width := w, scrollWidth := sw, containerWidth := cw }
      = getBodyDimensionsErrors d) := by
  have hErr : getBodyDimensionsErrors d =
      if max 0 (d.scrollHeight - effectiveHeight d - 1) * PT_PER_PX_MODULE
          > heightOverflowTolerance then
        [overflowMessage
          (max 0 (d.scrollHeight - effectiveHeight d - 1) * PT_PER_PX_MODULE
            - heightOverflowTolerance)]
      else [] := rfl
  have hHoriz : ∀ w sw cw, getBodyDimensionsErrors
      { d with width := w, scrollWidth := sw, containerWidth := cw }
    = getBodyDimensionsErrors d := fun w sw cw => rfl
  set x := d.scrollHeight - effectiveHeight d - 1 with hx
  rcases le_or_lt x 0 with hx0 | hx0
  · have hmax : max 0 x = 0 := max_eq_left hx0
    rw [hmax] at hErr
    have hcond : ¬ ((0 : ℚ) * PT_PER_PX_MODULE > heightOverflowTolerance) := by
      norm_num [PT_PER_PX_MODULE, heightOverflowTolerance]
    rw [if_neg hcond] at hErr
    have hno : ¬ (x * PT_PER_PX_MODULE > 100) := by
      rw [not_lt]
      have : x * PT_PER_PX_MODULE ≤ 0 := by
        rw [PT_PER_PX_MODULE]; nlinarith
      linarith
    exact ⟨by simp [hErr, hno], fun hgt => absurd hgt hno, hHoriz⟩
  · have hmax : max 0 x = x := max_eq_right (le_of_lt hx0)
    rw [hmax] at hErr
    have htol : heightOverflowTolerance = 100 := rfl
    by_cases hgt : x * PT_PER_PX_MODULE > 100
    · rw [if_pos (by rw [htol]; exact hgt)] at hErr
      refine ⟨?_, fun _ => by rw [hErr, htol], hHoriz⟩
      simp [hErr, hgt]
    · rw [if_neg (by rw [htol]; exact hgt)] at hErr
      exact ⟨by simp [hErr, hgt], fun h => absurd h hgt, hHoriz⟩

/-- C3 witness: the amended rule fired at the concrete 300px overflow. -/
theorem c3_overflow_amended_witness :
    getBodyDimensionsErrors cexOverflowDims =
      [overflowMessage
        ((cexOverflowDims.scrollHeight - effectiveHeight cexOverflowDims - 1)
          * PT_PER_PX_MODULE - 100)] :=
  (c3_overflow_amended cexOverflowDims).2.1
    (by norm_num [cexOverflowDims, effectiveHeight, orFalsy, PT_PER_PX_MODULE])

/-- C3 counterexample: with a 150pt overflow (300px), the claim as stated
predicts an excess of exactly 50pt, but the code (which first subtracts one
pixel) reports 49.5pt. -/
theorem c3_overflow_minus_one_cex :
    specOverflowExcess cexOverflowDims = some 50 ∧
    codeOverflowExcess cexOverflowDims = some (99/2) ∧
    ((50 : ℚ) ≠ 99/2) := by
  refine ⟨?_, ?_, by norm_num⟩
  · norm_num [specOverflowExcess, effectiveHeight, orFalsy, cexOverflowDims,
      PT_PER_PX_MODULE, heightOverflowTolerance]
  · have hmax : max (0:ℚ) (1020 - 720 - 1) = 299 := by
      rw [max_eq_right] <;> norm_num
    norm_num [codeOverflowExcess, effectiveHeight, orFalsy, cexOverflowDims,
      PT_PER_PX_MODULE, heightOverflowTolerance, hmax]

/-- C1 (amended): a non-empty accumulated finding list makes `html2pptx`
fail with one error — the numbered composite when there are at least two
findings, the lone finding text when there is exactly one — and in that
case no slide is added, no background is set and no element-adding
primitive is called; with no findings and check mode off, the slide is
added (unless supplied), the background set, and every element emitted. -/
theorem c1_failfast_atomic (be de te : List String) (sd : SlideData) (cm sp : Bool) :
    (collectValidationErrors be de te sd ≠ [] →
      html2pptxFinish be de te sd cm sp
        = .error (composeErrorMessage (collectValidationErrors be de te sd))) ∧
    (collectValidationErrors be de te sd = [] → cm = false →
      html2pptxFinish be de te sd cm sp
        = .ok ⟨!sp, addBackground sd.background, addElements sd.elements,
               sd.placeholders, false⟩) ∧
    (∀ e1 e2 rest, composeErrorMessage (e1 :: e2 :: rest)
        = specNumberedMessage (e1 :: e2 :: rest)) ∧
    (∀ e, composeErrorMessage [e] = e) := by
  refine ⟨fun h => ?_, fun h hcm => ?_, fun e1 e2 rest => ?_, fun e => ?_⟩
  · simp only [html2pptxFinish]
    rw [if_pos h]
  · simp only [html2pptxFinish, h, hcm]
    simp
  · simp only [composeErrorMessage, List.length_cons]
    rw [if_neg (by omega)]
  · simp [composeErrorMessage]

/-- C1 witness: with one accumulated finding, the whole call fails with
exactly that finding and produces no emission outcome. -/
theorem c1_failfast_atomic_witness :
    html2pptxFinish [] [] [] cexSingleFindingSlide false false
      = .error (composeErrorMessage
          (collectValidationErrors [] [] [] cexSingleFindingSlide)) :=
  (c1_failfast_atomic [] [] [] cexSingleFindingSlide false false).1 (by decide)

/-- C1 counterexample: with exactly one finding the thrown message is the
finding itself, not a numbered list of all findings. -/
theorem c1_single_finding_message_cex :
    html2pptxFinish [] [] [] cexSingleFindingSlide false false
      = .error "content overflow finding" ∧
    "content overflow finding"
      ≠ specNumberedMessage ["content overflow finding"] := by
  exact ⟨rfl, by decide⟩

/-- An empty `rowCountErrors` result means every row has the expected cell
count. -/
lemma rowCountErrors_eq_nil (n : ℕ) :
    ∀ (i : ℕ) (rows : List (List CellData)), rowCountErrors n i rows = [] →
      ∀ row ∈ rows, row.length = n
  | _, [], _, row, hmem => absurd hmem (List.not_mem_nil row)
  | i, r :: rest, h, row, hmem => by
      simp only [rowCountErrors, List.append_eq_nil] at h
      rcases List.mem_cons.mp hmem with rfl | hmem2
      · by_contra hne
        rw [if_pos hne] at h
        exact absurd h.1 (by simp)
      · exact rowCountErrors_eq_nil n (i + 1) rest h.2 row hmem2

/-- C6 (amended): in a document that passes validation, every table block
has non-empty column widths and data and every row has exactly as many
cells as there are column-width ratios.  (The ratio sum is not validated;
see the counterexample.) -/
theorem c6_validated_row_counts (be de te : List String) (sd : SlideData)
    (hv : collectValidationErrors be de te sd = [])
    (pos : PosSize) (data : List (List CellData)) (colWidths : List ℚ)
    (style : TableStyle)
    (hmem : Element.table pos data colWidths style ∈ sd.elements) :
    colWidths ≠ [] ∧ data ≠ [] ∧ ∀ row ∈ data, row.length = colWidths.length := by
  have hts : tableStructureErrors sd.elements = [] := by
    simp only [collectValidationErrors, List.append_eq_nil] at hv
    tauto
  have hel : tableErrorsFor (Element.table pos data colWidths style) = [] := by
    rw [tableStructureErrors, List.flatten_eq_nil_iff] at hts
    exact hts _ (List.mem_map_of_mem tableErrorsFor hmem)
  simp only [tableErrorsFor, List.append_eq_nil] at hel
  have hcw : colWidths ≠ [] := by
    intro hnil
    have h1 := hel.1.1
    rw [if_pos hnil] at h1
    exact absurd h1 (by simp)
  have hdata : data ≠ [] := by
    intro hnil
    have h2 := hel.1.2
    rw [if_pos hnil] at h2
    exact absurd h2 (by simp)
  refine ⟨hcw, hdata, ?_⟩
  have hrows := hel.2
  rw [if_pos ⟨hdata, hcw⟩] at hrows
  exact rowCountErrors_eq_nil colWidths.length 0 data hrows

/-- C6 witness: the validated half-width table has matching row counts. -/
theorem c6_validated_row_counts_witness :
    cexTableExtracted.colWidths ≠ [] ∧ cexTableExtracted.data ≠ [] ∧
    ∀ row ∈ cexTableExtracted.data,
      row.length = cexTableExtracted.colWidths.length :=
  c6_validated_row_counts [] [] [] cexTableSlide (by decide)
    cexTableExtracted.position cexTableExtracted.data cexTableExtracted.colWidths
    cexTableExtracted.style (by exact List.mem_singleton.mpr rfl)

/-- C6 counterexample: a table whose lone header cell spans half the table
width passes the whole validation, yet its column-width ratios sum to 0.5,
nowhere near 1.0. -/
theorem c6_colwidth_sum_cex :
    collectValidationErrors [] [] [] cexTableSlide = [] ∧
    cexTableExtracted.colWidths.sum = 1/2 ∧
    ¬ (|cexTableExtracted.colWidths.sum - 1| < 1/4) := by
  have hsum : cexTableExtracted.colWidths.sum = 1/2 := by
    norm_num [cexTableExtracted, extractTable, tableColWidths, cexTable, adjustRect]
  refine ⟨by decide, hsum, ?_⟩
  rw [hsum, show (1 : ℚ)/2 - 1 = -(1/2) by norm_num, abs_neg,
    abs_of_nonneg (by norm_num : (0 : ℚ) ≤ 1/2)]
  norm_num

/-- The helper `modifyLast` preserves length. -/
lemma modifyLast_length {α : Type} (f : α → α) :
    ∀ l : List α, (modifyLast f l).length = l.length
  | [] => rfl
  | [_] => rfl
  | _ :: b :: rest => by
      simp only [modifyLast, List.length_cons]
      rw [modifyLast_length f (b :: rest)]
      simp

/-- The end-of-call trim preserves the number of runs. -/
lemma trimRunEnds_length (runs : List Run) :
    (trimRunEnds runs).length = runs.length := by
  cases runs with
  | nil => rfl
  | cons a rest =>
      simp only [trimRunEnds, modifyLast_length, List.modifyHead_cons,
        List.length_cons]

/-- Appending a fragment to a run list of at most one run (empty whenever
the previous sibling was not text) keeps it at most one run. -/
lemma pushOrMerge_length_le (prev : Bool) (runs : List Run) (text : String)
    (base : Options) (h1 : runs.length ≤ 1) (h2 : prev = false → runs = []) :
    (pushOrMerge prev runs text base).length ≤ 1 := by
  cases prev with
  | false =>
      rw [h2 rfl]
      simp [pushOrMerge]
  | true =>
      by_cases hr : runs = []
      · subst hr
        simp [pushOrMerge]
      · unfold pushOrMerge
        rw [if_pos ⟨rfl, hr⟩, modifyLast_length]
        exact h1

/-- Walking text-and-break-only content never accumulates a second run:
consecutive text fragments merge into the previous run. -/
lemma piNodes_allTextOrBr_le (innerTrim : Bool) (base : Options)
    (tt : TextTransformCss) (preserve : Bool) :
    ∀ (l : INodes), l.allTextOrBr = true → ∀ (prev : Bool) (st : PState),
      st.runs.length ≤ 1 → (prev = false → st.runs = []) →
      (piNodes innerTrim base tt preserve l prev st).runs.length ≤ 1
  | .nil, _, prev, st, h1, h2 => by
      simpa [piNodes] using h1
  | .cons (.textNode s) rest, hall, prev, st, h1, h2 => by
      have hrest : rest.allTextOrBr = true := by
        simpa [INodes.allTextOrBr] using hall
      simp only [piNodes, piNode]
      split_ifs with hskip hp
      · exact piNodes_allTextOrBr_le innerTrim base tt preserve rest hrest prev st h1 h2
      · exact piNodes_allTextOrBr_le innerTrim base tt preserve rest hrest true _
          (pushOrMerge_length_le prev st.runs _ base h1 h2) (by simp)
      · exact piNodes_allTextOrBr_le innerTrim base tt preserve rest hrest true _
          (pushOrMerge_length_le prev st.runs _ base h1 h2) (by simp)
  | .cons .br rest, hall, prev, st, h1, h2 => by
      have hrest : rest.allTextOrBr = true := by
        simpa [INodes.allTextOrBr] using hall
      simp only [piNodes, piNode]
      exact piNodes_allTextOrBr_le innerTrim base tt preserve rest hrest true _
        (pushOrMerge_length_le prev st.runs _ base h1 h2) (by simp)
  | .cons (.elem _ _ _) _, hall, _, _, _, _ => by
      simp [INodes.allTextOrBr] at hall

/-- C7 (amended): the parser never returns an empty-text run; content made
only of text and line-break nodes (all fragments sharing the base options)
collapses into at most one run; and trailing whitespace is stripped not
only from the last run but also from any run that is last when a styled
child closes, as the concrete `<b>bold </b>tail` input shows. -/
theorem c7_run_parser_amended :
    (∀ (children : INodes) (base : Options) (tt : TextTransformCss)
      (preserve : Bool),
      ∀ r ∈ (parseInlineFormatting children base tt preserve).runs, r.text ≠ "") ∧
    (∀ (children : INodes) (base : Options) (tt : TextTransformCss)
      (preserve : Bool), children.allTextOrBr = true →
      (parseInlineFormatting children base tt preserve).runs.length ≤ 1) ∧
    (parseInlineFormatting exBoldTail {} .unset false).runs.map Run.text
      = ["bold", "tail"] := by
  refine ⟨fun children base tt preserve r hr => ?_,
    fun children base tt preserve hall => ?_, by decide⟩
  · unfold parseInlineFormatting at hr
    have h := (List.mem_filter.mp hr).2
    simpa using h
  · unfold parseInlineFormatting
    calc ((trimRunEnds (piNodes true base tt preserve children false
            ⟨[], []⟩).runs).filter (fun r => r.text ≠ "")).length
        ≤ (trimRunEnds (piNodes true base tt preserve children false
            ⟨[], []⟩).runs).length := List.length_filter_le _ _
      _ = (piNodes true base tt preserve children false ⟨[], []⟩).runs.length :=
          trimRunEnds_length _
      _ ≤ 1 := piNodes_allTextOrBr_le true base tt preserve children hall false
          ⟨[], []⟩ (by simp) (fun _ => rfl)

/-- C7 witness: the amended statement applied at concrete inputs. -/
theorem c7_run_parser_amended_witness :
    (Run.mk "tail" {}).text ≠ "" ∧
    (parseInlineFormatting (.cons (.textNode "a ") (.cons (.textNode " b") .nil))
      {} .unset false).runs.length ≤ 1 :=
  ⟨c7_run_parser_amended.1 exBoldTail {} .unset false ⟨"tail", {}⟩ (by decide),
   c7_run_parser_amended.2.1 _ {} .unset false (by decide)⟩

/-- C7 counterexample: on `<b>bold </b>tail` the source trims the trailing
space of the run produced inside `<b>` even though it is not the last run,
while the trimming rule as the claim states it (leading from the first
run, trailing from the last run only) would keep it. -/
theorem c7_inner_trim_cex :
    (parseInlineFormatting exBoldTail {} .unset false).runs.map Run.text
      = ["bold", "tail"] ∧
    (parseInlineFormattingSpecTrim exBoldTail {} .unset false).runs.map Run.text
      = ["bold ", "tail"] ∧
    (["bold", "tail"] : List String) ≠ ["bold ", "tail"] := by decide

end Html2Pptx
